import Mathlib

/-!
Verification of the darkcoin LLMQ subsystem specification against the source.

The development shallowly embeds the relevant parts of the source:
  - src/llmq/utils.cpp        (quorum snapshot skip lists, BuildSignHash,
                               BuildCommitmentHash, DeterministicOutboundConnection)
  - src/llmq/snapshot.h       (CQuorumSnapshot)
  - the InstantSend manager   (CInstantSendDb / CInstantSendManager)

Machine integers are modelled as Nat with explicit reductions mod 2^w where
overflow matters.  Hashes (uint256) are Nat values below 2^256, serialized as
32 little-endian bytes, compared numerically (as base_uint does).
-/

set_option maxRecDepth 40000

set_option maxHeartbeats 2000000

namespace Darkcoin

/-! ## Bytes and SHA-256 (FIPS 180-4), the standard node hash primitive -/

/-- 32-bit right rotation. -/
def rotr32 (n x : Nat) : Nat :=
  ((x >>> n) ||| ((x <<< (32 - n)) % 2 ^ 32)) % 2 ^ 32

def shaCh (x y z : Nat) : Nat := ((x &&& y) ^^^ ((x ^^^ 0xffffffff) &&& z)) % 2 ^ 32

def shaMaj (x y z : Nat) : Nat := ((x &&& y) ^^^ (x &&& z) ^^^ (y &&& z)) % 2 ^ 32

def bsig0 (x : Nat) : Nat := rotr32 2 x ^^^ rotr32 13 x ^^^ rotr32 22 x

def bsig1 (x : Nat) : Nat := rotr32 6 x ^^^ rotr32 11 x ^^^ rotr32 25 x

def ssig0 (x : Nat) : Nat := rotr32 7 x ^^^ rotr32 18 x ^^^ (x >>> 3)

def ssig1 (x : Nat) : Nat := rotr32 17 x ^^^ rotr32 19 x ^^^ (x >>> 10)

/-- The 64 round constants (fractional cube-root parts of the first primes). -/
def shaK : List Nat :=
  [1116352408, 1899447441, 3049323471, 3921009573, 961987163, 1508970993, 2453635748,
   2870763221, 3624381080, 310598401, 607225278, 1426881987, 1925078388, 2162078206,
   2614888103, 3248222580, 3835390401, 4022224774, 264347078, 604807628, 770255983,
   1249150122, 1555081692, 1996064986, 2554220882, 2821834349, 2952996808, 3210313671,
   3336571891, 3584528711, 113926993, 338241895, 666307205, 773529912, 1294757372,
   1396182291, 1695183700, 1986661051, 2177026350, 2456956037, 2730485921, 2820302411,
   3259730800, 3345764771, 3516065817, 3600352804, 4094571909, 275423344, 430227734,
   506948616, 659060556, 883997877, 958139571, 1322822218, 1537002063, 1747873779,
   1955562222, 2024104815, 2227730452, 2361852424, 2428436474, 2756734187, 3204031479,
   3329325298]

/-- The initial digest words (fractional square-root parts of the first primes). -/
def shaInit : List Nat :=
  [1779033703, 3144134277, 1013904242, 2773480762, 1359893119, 2600822924, 528734635,
   1541459225]

/-- Big-endian bytes of `n`, `k` bytes wide. -/
def beBytes (k n : Nat) : List Nat :=
  match k with
  | 0 => []
  | k + 1 => beBytes k (n / 256) ++ [n % 256]

/-- SHA-256 padding: append 0x80, zeros to 56 mod 64, then the 64-bit big-endian bit length. -/
def sha256pad (msg : List Nat) : List Nat :=
  let L := msg.length
  let k := (64 + 55 - (L % 64)) % 64
  msg ++ [0x80] ++ List.replicate k 0 ++ beBytes 8 (8 * L)

def chunks64 (fuel : Nat) (l : List Nat) : List (List Nat) :=
  match fuel, l with
  | 0, _ => []
  | _, [] => []
  | f + 1, l => l.take 64 :: chunks64 f (l.drop 64)

def wordsOfBytes : List Nat → List Nat
  | a :: b :: c :: d :: rest => (((a * 256 + b) * 256 + c) * 256 + d) :: wordsOfBytes rest
  | _ => []

/-- One message-schedule extension step: append word `W[n]` for `n = w.length`. -/
def scheduleStep (w : List Nat) : List Nat :=
  let n := w.length
  let g (k : Nat) : Nat := w.getD (n - k) 0
  w ++ [(ssig1 (g 2) + g 7 + ssig0 (g 15) + g 16) % 2 ^ 32]

def scheduleFull (w : List Nat) : Nat → List Nat
  | 0 => w
  | k + 1 => scheduleFull (scheduleStep w) k

/-- One SHA-256 round on state (a,...,h) with round constant+schedule word `kw`. -/
def shaRound (st : List Nat) (kw : Nat × Nat) : List Nat :=
  match st with
  | [a, b, c, d, e, f, g, h] =>
    let t1 := (h + bsig1 e + shaCh e f g + kw.1 + kw.2) % 2 ^ 32
    let t2 := (bsig0 a + shaMaj a b c) % 2 ^ 32
    [(t1 + t2) % 2 ^ 32, a, b, c, (d + t1) % 2 ^ 32, e, f, g]
  | _ => st

def compressBlock (h0 : List Nat) (block : List Nat) : List Nat :=
  let w := scheduleFull (wordsOfBytes block) 48
  let fin := (shaK.zip w).foldl shaRound h0
  (h0.zip fin).map (fun p => (p.1 + p.2) % 2 ^ 32)

/-- SHA-256 of a byte list; digest as 32 bytes. -/
def sha256 (msg : List Nat) : List Nat :=
  let padded := sha256pad msg
  let hs := (chunks64 padded.length padded).foldl compressBlock shaInit
  hs.foldr (fun wrd acc => beBytes 4 wrd ++ acc) []

/-- The standard node double SHA-256 ("Hash"/CHashWriter::GetHash). -/
def sha256d (msg : List Nat) : List Nat := sha256 (sha256 msg)

/-! ## Serialization primitives

Modelled from the spec: the Bitcoin serialization layer (serialize.h, hash.h)
is not under src/; the spec fixes it in §6: serialized little-endian,
compact-size lengths, dynamic bitsets as compact-size `n` then `⌈n/8⌉` bytes
little-endian with unused trailing bits zero, and `H` the standard double
SHA-256. -/

/-- Little-endian bytes of `n`, `k` bytes wide. -/
def leBytes (k n : Nat) : List Nat :=
  match k with
  | 0 => []
  | k + 1 => n % 256 :: leBytes k (n / 256)

def serU8 (n : Nat) : List Nat := [n % 256]

def serU32 (n : Nat) : List Nat := leBytes 4 n

/-- uint256 serializes as its 32 bytes, little-endian memory order. -/
def serU256 (n : Nat) : List Nat := leBytes 32 n

/-- Read a byte list as a little-endian number (uint256 values compare
numerically with the low byte least significant). -/
def natOfBytesLE (l : List Nat) : Nat := l.foldr (fun b acc => acc * 256 + b) 0

def writeCompactSize (n : Nat) : List Nat :=
  if n < 253 then [n]
  else if n ≤ 0xffff then 253 :: leBytes 2 n
  else if n ≤ 0xffffffff then 254 :: leBytes 4 n
  else 255 :: leBytes 8 n

/-- Pack the first (up to) 8 bits into a byte, least significant bit first. -/
def bitsByte (l : List Bool) : Nat :=
  (l.take 8).foldr (fun b acc => acc * 2 + (if b then 1 else 0)) 0

def packBits : List Bool → List Nat
  | [] => []
  | b0 :: b1 :: b2 :: b3 :: b4 :: b5 :: b6 :: b7 :: rest =>
    bitsByte [b0, b1, b2, b3, b4, b5, b6, b7] :: packBits rest
  | l => [bitsByte l]

/-- Modelled from the spec: dynamic bitset encoding of §6 (DYNBITSET wire form). -/
def dynBitsetSer (bits : List Bool) : List Nat :=
  writeCompactSize bits.length ++ packBits bits

/-- CHashWriter: accumulates serialized bytes; GetHash is the double SHA-256
of the accumulated stream, read as a uint256. -/
structure HashWriter where
  buf : List Nat

def HashWriter.empty : HashWriter := ⟨[]⟩

/-- One `hw << x` step: append the serialization of `x`. -/
def HashWriter.app (hw : HashWriter) (bs : List Nat) : HashWriter := ⟨hw.buf ++ bs⟩

def HashWriter.GetHash (hw : HashWriter) : Nat := natOfBytesLE (sha256d hw.buf)

/-! ## CLLMQUtils hash derivations (src/llmq/utils.cpp)

`Consensus::LLMQType` is a one-byte enum on the wire (spec §6 wire table);
`CBLSPublicKey` serializes as its 48 bytes, carried here as an uninterpreted byte
list. -/

/-- From CLLMQUtils::BuildSignHash (utils.cpp:389-397): stream llmqType,
quorumHash, id, msgHash into a CHashWriter and take GetHash. -/
def BuildSignHash (llmqType quorumHash id msgHash : Nat) : Nat :=
  let h := HashWriter.empty
  let h := h.app (serU8 llmqType)
  let h := h.app (serU256 quorumHash)
  let h := h.app (serU256 id)
  let h := h.app (serU256 msgHash)
  h.GetHash

/-- From CLLMQUtils::BuildCommitmentHash (utils.cpp:376-387).
`isIndexedVersion` stands for the source
expression `nVersion == CFinalCommitment::QUORUM_INDEXED_VERSION` (the
definition, llmq/commitment.h, is not under src/); when it holds the source
streams `quorumIndex` directly after `blockHash`. -/
def BuildCommitmentHash (llmqType blockHash : Nat) (validMembers : List Bool)
    (pubKey : List Nat) (vvecHash : Nat) (isIndexedVersion : Bool) (quorumIndex : Nat) : Nat :=
  let h := HashWriter.empty
  let h := h.app (serU8 llmqType)
  let h := h.app (serU256 blockHash)
  let h := if isIndexedVersion then h.app (serU32 quorumIndex) else h
  let h := h.app (dynBitsetSer validMembers)
  let h := h.app pubKey
  let h := h.app (serU256 vvecHash)
  h.GetHash

/-- The commitment hash as the spec words it (§4.2):
`H(llmqType || quorumHash || validMembers || quorumPublicKey ||
verificationVectorHash [ || quorumIndex if indexed])` — with quorumIndex
appended at the END. Stated from the wording of the spec, for comparison with
`BuildCommitmentHash`. -/
def commitmentHashSpecOrder (llmqType blockHash : Nat) (validMembers : List Bool)
    (pubKey : List Nat) (vvecHash : Nat) (isIndexedVersion : Bool) (quorumIndex : Nat) : Nat :=
  natOfBytesLE (sha256d (serU8 llmqType ++ serU256 blockHash ++ dynBitsetSer validMembers
    ++ pubKey ++ serU256 vvecHash ++ (if isIndexedVersion then serU32 quorumIndex else [])))

/-- `::SerializeHash(std::make_tuple(a, b, c))` on three uint256 values:
double SHA-256 of the three 32-byte serializations, read as uint256. -/
def serializeHashTriple (a b c : Nat) : Nat :=
  natOfBytesLE (sha256d (serU256 a ++ serU256 b ++ serU256 c))

/-- From CLLMQUtils::DeterministicOutboundConnection (utils.cpp:429-449). -/
def DeterministicOutboundConnection (proTxHash1 proTxHash2 : Nat) : Nat :=
  let h1 := if proTxHash1 < proTxHash2
    then serializeHashTriple proTxHash1 proTxHash2 proTxHash1
    else serializeHashTriple proTxHash2 proTxHash1 proTxHash1
  let h2 := if proTxHash1 < proTxHash2
    then serializeHashTriple proTxHash1 proTxHash2 proTxHash2
    else serializeHashTriple proTxHash2 proTxHash1 proTxHash2
  if h1 < h2 then proTxHash1 else proTxHash2

/-! ## Quorum snapshot skip lists (src/llmq/utils.cpp:309-374 and 198-290)

Masternodes are carried by proTxHash (a Nat); `used` plays the role of
`mnUsedAtH.ContainsMN`. The skip list is a `std::vector<int>`: the source
pushes `first_entry_index - i` computed in `size_t` and narrowed to `int`,
which for the in-range magnitudes at play is the signed difference, so
entries are modelled as `Int`. -/

/-- The (mnSkipListMode, mnSkipList) pair written into CQuorumSnapshot. -/
structure SnapshotSkip where
  mnSkipListMode : Nat
  mnSkipList : List Int
  deriving DecidableEq

structure SkipBuildResult where
  quarterMembers : List Nat
  snapshot : SnapshotSkip
  deriving DecidableEq

/-- The shared `while (quarterMembers.size() < quarterSize && i < size)` loop
of BuildQuorumSnapshotSkipList; `skipCond` is `ContainsMN` for mode 1 and its
negation for mode 2. State: current index `i`, `first_entry_index` (a
`size_t`, 0 until the first skip entry), accumulated skip list and quarter. -/
def buildSkipLoop (quarterSize : Nat) (skipCond : Nat → Bool) :
    List Nat → Nat → Int → List Int → List Nat → List Int × List Nat
  | [], _, _, skipAcc, quarterAcc => (skipAcc, quarterAcc)
  | mn :: rest, i, first, skipAcc, quarterAcc =>
    if quarterSize ≤ quarterAcc.length then (skipAcc, quarterAcc)
    else if skipCond mn then
      if first = 0 then
        buildSkipLoop quarterSize skipCond rest (i + 1) (Int.ofNat i)
          (skipAcc ++ [Int.ofNat i]) quarterAcc
      else
        buildSkipLoop quarterSize skipCond rest (i + 1) first
          (skipAcc ++ [first - Int.ofNat i]) quarterAcc
    else
      buildSkipLoop quarterSize skipCond rest (i + 1) first skipAcc (quarterAcc ++ [mn])

/-- From CLLMQUtils::BuildQuorumSnapshotSkipList (utils.cpp:309-374): given
the combined sorted list and the used-set, produce the fresh quarter and the
skip-list encoding of the snapshot. Falls back to mode 3 with a cleared quarter
when fewer than `quarterSize` members were selected. -/
def BuildQuorumSnapshotSkipList (quarterSize : Nat) (used : Nat → Bool)
    (sortedCombinedMns : List Nat) : SkipBuildResult :=
  let nMnsUsed := sortedCombinedMns.countP used
  if nMnsUsed = 0 then
    { quarterMembers := sortedCombinedMns.take quarterSize, snapshot := ⟨0, []⟩ }
  else
    let modeAndLoop :=
      if nMnsUsed < sortedCombinedMns.length / 2 then
        (1, buildSkipLoop quarterSize used sortedCombinedMns 0 0 [] [])
      else
        (2, buildSkipLoop quarterSize (fun mn => ! used mn) sortedCombinedMns 0 0 [] [])
    let quarter := modeAndLoop.2.2
    if quarter.length < quarterSize then
      { quarterMembers := [], snapshot := ⟨3, modeAndLoop.2.1⟩ }
    else
      { quarterMembers := quarter, snapshot := ⟨modeAndLoop.1, modeAndLoop.2.1⟩ }

/-- `sortedCombinedMnsList.at(idx)`: `std::vector::at` throws on any index
outside the list (a negative `int` becomes a huge `size_t`), modelled as
`none`. -/
def atIdx (mns : List Nat) (i : Int) : Option Nat :=
  if i < 0 then none else mns.get? i.toNat

/-- Decode the skip-list entries into the masternodes they designate, as the
reader loops of GetQuorumQuarterMembersBySnapshot do (utils.cpp:246-254,
268-276): the entry seen while `first_entry_index == 0` is absolute and sets
`first_entry_index`; later entries index at `first_entry_index + s`. -/
def resolveSkipIndices (mns : List Nat) : List Int → Int → List Nat → Option (List Nat)
  | [], _, acc => some acc
  | s :: rest, first, acc =>
    if first = 0 then
      match atIdx mns s with
      | none => none
      | some mn => resolveSkipIndices mns rest s (acc ++ [mn])
    else
      match atIdx mns (first + s) with
      | none => none
      | some mn => resolveSkipIndices mns rest first (acc ++ [mn])

/-- From the mode dispatch of CLLMQUtils::GetQuorumQuarterMembersBySnapshot
(utils.cpp:237-289): apply a stored (mode, skip list) to the combined sorted
list. `std::stable_partition` + `erase` keeps, in order, exactly the entries
satisfying the predicate; the final `std::copy_n(_, quarterSize, _)` reads
`quarterSize` entries unconditionally — reading past the end (or an `.at`
miss) is `none`. Mode 3 — and any unknown mode — takes no branch and returns
the empty quarter. -/
def ApplySkipList (quarterSize : Nat) (sortedCombinedMns : List Nat)
    (mode : Nat) (skipList : List Int) : Option (List Nat) :=
  if mode = 0 then
    if quarterSize ≤ sortedCombinedMns.length then some (sortedCombinedMns.take quarterSize)
    else none
  else if mode = 1 then
    match resolveSkipIndices sortedCombinedMns skipList 0 [] with
    | none => none
    | some toRemove =>
      let remaining := sortedCombinedMns.filter (fun mn => ! toRemove.contains mn)
      if quarterSize ≤ remaining.length then some (remaining.take quarterSize) else none
  else if mode = 2 then
    match resolveSkipIndices sortedCombinedMns skipList 0 [] with
    | none => none
    | some toKeep =>
      let remaining := sortedCombinedMns.filter (fun mn => toKeep.contains mn)
      if quarterSize ≤ remaining.length then some (remaining.take quarterSize) else none
  else some []

/-- The implicit precondition of the quarter extraction: the decoded
skip-list entries are in range and the combined list still provides
`quarterSize` (= size/4) entries after the skipping of the given mode. -/
def SkipApplyPrecond (quarterSize : Nat) (sortedCombinedMns : List Nat)
    (mode : Nat) (skipList : List Int) : Bool :=
  if mode = 0 then quarterSize ≤ sortedCombinedMns.length
  else if mode = 1 then
    match resolveSkipIndices sortedCombinedMns skipList 0 [] with
    | none => false
    | some toRemove =>
      quarterSize ≤ (sortedCombinedMns.filter (fun mn => ! toRemove.contains mn)).length
  else if mode = 2 then
    match resolveSkipIndices sortedCombinedMns skipList 0 [] with
    | none => false
    | some toKeep =>
      quarterSize ≤ (sortedCombinedMns.filter (fun mn => toKeep.contains mn)).length
  else true

/-! ## InstantSend (quorums_instantsend.cpp)

Keys are Nats (uint256 values read little-endian); an outpoint is
(txid, index). The persistent store and its read-through caches are written
together and agree, so each index family is carried as one association list
with overwrite-on-write semantics (CDBWrapper writes replace the value under
an existing key). -/

abbrev Outpoint := Nat × Nat

structure CInstantSendLock where
  txid : Nat
  inputs : List Outpoint
  sig : Nat
  deriving DecidableEq

/-- Overwrite-insert into a keyed map. -/
def setKV {α β : Type} [DecidableEq α] (m : List (α × β)) (k : α) (v : β) : List (α × β) :=
  (k, v) :: m.filter (fun p => p.1 != k)

/-- Erase a key from a keyed map. -/
def eraseKV {α β : Type} [DecidableEq α] (m : List (α × β)) (k : α) : List (α × β) :=
  m.filter (fun p => p.1 != k)

/-- The four key families of CInstantSendDb (spec §6 persisted layout). -/
structure CInstantSendDb where
  islocks : List (Nat × CInstantSendLock)
  txidIndex : List (Nat × Nat)
  inputIndex : List (Outpoint × Nat)
  lastChainLockBlock : Nat
  deriving DecidableEq

def emptyISDb : CInstantSendDb := ⟨[], [], [], 0⟩

/-- From CInstantSendDb::WriteNewInstantSendLock: one batch writing
("is_i",hash)→islock, ("is_tx",txid)→hash and ("is_in",in)→hash per input. -/
def WriteNewInstantSendLock (db : CInstantSendDb) (hash : Nat)
    (islock : CInstantSendLock) : CInstantSendDb :=
  { db with
    islocks := setKV db.islocks hash islock,
    txidIndex := setKV db.txidIndex islock.txid hash,
    inputIndex := islock.inputs.foldl (fun m o => setKV m o hash) db.inputIndex }

def GetInstantSendLockByHash (db : CInstantSendDb) (hash : Nat) : Option CInstantSendLock :=
  List.lookup hash db.islocks

def GetInstantSendLockByTxid (db : CInstantSendDb) (txid : Nat) : Option CInstantSendLock :=
  match List.lookup txid db.txidIndex with
  | none => none
  | some h => GetInstantSendLockByHash db h

def GetInstantSendLockByInput (db : CInstantSendDb) (o : Outpoint) : Option CInstantSendLock :=
  match List.lookup o db.inputIndex with
  | none => none
  | some h => GetInstantSendLockByHash db h

/-- From CInstantSendDb::RemoveInstantSendLock: resolve the islock by hash
when not supplied; a miss is a no-op; otherwise erase all three key
families. -/
def RemoveInstantSendLock (db : CInstantSendDb) (hash : Nat)
    (islockArg : Option CInstantSendLock) : CInstantSendDb :=
  let resolved := match islockArg with
    | some l => some l
    | none => GetInstantSendLockByHash db hash
  match resolved with
  | none => db
  | some islock =>
    { db with
      islocks := eraseKV db.islocks hash,
      txidIndex := eraseKV db.txidIndex islock.txid,
      inputIndex := islock.inputs.foldl (fun m o => eraseKV m o) db.inputIndex }

/-- Serialization of a COutPoint: 32-byte hash then 4-byte index. -/
def serOutpoint (o : Outpoint) : List Nat := serU256 o.1 ++ serU32 o.2

/-- Bytes of the serialized string "inlock" (INPUTLOCK_REQUESTID_PREFIX):
compact size 6, then the characters. -/
def inlockTag : List Nat := [6, 105, 110, 108, 111, 99, 107]

/-- Bytes of the serialized string "islock" (ISLOCK_REQUESTID_PREFIX). -/
def islockTag : List Nat := [6, 105, 115, 108, 111, 99, 107]

/-- `::SerializeHash(std::make_pair(INPUTLOCK_REQUESTID_PREFIX, prevout))`,
the per-input request id of ProcessTx. -/
def inputRequestId (o : Outpoint) : Nat :=
  natOfBytesLE (sha256d (inlockTag ++ serOutpoint o))

def serOutpointList (l : List Outpoint) : List Nat :=
  writeCompactSize l.length ++ l.foldr (fun o acc => serOutpoint o ++ acc) []

/-- From CInstantSendLock::GetRequestId: hash of "islock" and the inputs. -/
def CInstantSendLock.GetRequestId (l : CInstantSendLock) : Nat :=
  natOfBytesLE (sha256d (islockTag ++ serOutpointList l.inputs))

/-- `::SerializeHash(islock)`: txid, inputs, then the 96-byte BLS signature
(the signature bytes carried uninterpreted). -/
def islockSerHash (l : CInstantSendLock) : Nat :=
  natOfBytesLE (sha256d (serU256 l.txid ++ serOutpointList l.inputs ++ leBytes 96 l.sig))

structure CInstantSendManager where
  db : CInstantSendDb
  inputRequestIds : List Nat
  creatingInstantSendLocks : List (Nat × CInstantSendLock)
  txToCreatingInstantSendLocks : List (Nat × Nat)
  deriving DecidableEq

def initialISManager : CInstantSendManager := ⟨emptyISDb, [], [], []⟩

/-- Observable actions of ProcessInstantSendLock, in program order. -/
inductive ISEvent where
  | removeAskFor (hash : Nat)
  | droppedChainLocked (hash : Nat)
  | logDuplicateTxid (hash : Nat)
  | logConflictInput (hash : Nat) (input : Outpoint)
  | writeLock (hash : Nat)
  | relayInv (hash : Nat)
  deriving DecidableEq

/-- From CInstantSendManager::ProcessInstantSendLock (quorums_instantsend.cpp:
621-685). `minedInChainLockedBlock` stands for the source
GetTransaction + HasChainLock probe on the mining block (chain state is an
external collaborator). Inside the critical section: erase any own creation
attempt, return if the hash is already stored, log a same-txid duplicate and
per-input conflicts WITHOUT returning, write the lock; after the section,
relay the inventory (the trailing mempool eviction and retry touch only the
mempool and are not modelled). -/
def ProcessInstantSendLock (minedInChainLockedBlock : Bool) (st : CInstantSendManager)
    (hash : Nat) (islock : CInstantSendLock) : CInstantSendManager × List ISEvent :=
  let ev0 := [ISEvent.removeAskFor hash]
  if minedInChainLockedBlock then (st, ev0 ++ [ISEvent.droppedChainLocked hash])
  else
    let st := { st with
      creatingInstantSendLocks := eraseKV st.creatingInstantSendLocks islock.GetRequestId,
      txToCreatingInstantSendLocks := eraseKV st.txToCreatingInstantSendLocks islock.txid }
    if (GetInstantSendLockByHash st.db hash).isSome then (st, ev0)
    else
      let ev1 := match GetInstantSendLockByTxid st.db islock.txid with
        | some _ => [ISEvent.logDuplicateTxid hash]
        | none => []
      let ev2 := islock.inputs.filterMap (fun o =>
        if (GetInstantSendLockByInput st.db o).isSome then some (ISEvent.logConflictInput hash o)
        else none)
      let st := { st with db := WriteNewInstantSendLock st.db hash islock }
      (st, ev0 ++ ev1 ++ ev2 ++ [ISEvent.writeLock hash, ISEvent.relayInv hash])

/-- Trace check: every relayInv is preceded by a writeLock of the same hash. -/
def relayAfterWrite : List ISEvent → List Nat → Bool
  | [], _ => true
  | ISEvent.writeLock h :: rest, written => relayAfterWrite rest (h :: written)
  | ISEvent.relayInv h :: rest, written => written.contains h && relayAfterWrite rest written
  | _ :: rest, written => relayAfterWrite rest written

/-- The store-level operations named by the input-exclusivity claim. -/
inductive ISOp where
  | process (minedInChainLockedBlock : Bool) (hash : Nat) (islock : CInstantSendLock)
  | write (hash : Nat) (islock : CInstantSendLock)
  | remove (hash : Nat) (islock : Option CInstantSendLock)

def applyISOp (st : CInstantSendManager) : ISOp → CInstantSendManager
  | ISOp.process m h l => (ProcessInstantSendLock m st h l).1
  | ISOp.write h l => { st with db := WriteNewInstantSendLock st.db h l }
  | ISOp.remove h l => { st with db := RemoveInstantSendLock st.db h l }

def runISOps (ops : List ISOp) : CInstantSendManager :=
  ops.foldl applyISOp initialISManager

/-! ### ChainLock supersession (NotifyChainLock) -/

structure BlockData where
  blockHash : Nat
  txs : List Nat
  deriving DecidableEq

/-- From CInstantSendManager::RemoveFinalISLock applied over the
transactions (the loop body of NotifyChainLock): for each tx with a stored
islock, remove the lock (keyed by `::SerializeHash(*islock)`) and drop its
input request ids. -/
def removeBlockISLocks (st : CInstantSendManager) (b : BlockData) : CInstantSendManager :=
  b.txs.foldl (fun st txid =>
    match GetInstantSendLockByTxid st.db txid with
    | none => st
    | some islock =>
      { st with
        db := RemoveInstantSendLock st.db (islockSerHash islock) (some islock),
        inputRequestIds := islock.inputs.foldl
          (fun ids o => ids.filter (fun id => id != inputRequestId o)) st.inputRequestIds }) st

/-- The `while (pindex && pindex->GetBlockHash() != lastChainLockBlock)` walk
of NotifyChainLock; the chain index plays pindex, `pprev` is the predecessor
index, and the returned Option Nat is the final value of pindex. -/
def notifyLoop (chain : List BlockData) (lastChainLockBlock : Nat) :
    Nat → CInstantSendManager → Option Nat × CInstantSendManager
  | i, st =>
    match chain.get? i with
    | none => (none, st)
    | some b =>
      if b.blockHash = lastChainLockBlock then (some i, st)
      else
        let st := removeBlockISLocks st b
        match i with
        | 0 => (none, st)
        | j + 1 => notifyLoop chain lastChainLockBlock j st

/-- From CInstantSendManager::NotifyChainLock (quorums_instantsend.cpp:
722-765). The source reads the stored watermark but DISCARDS the value —
the statement is `db.GetLastChainLockBlock();` with no assignment — so the
local `lastChainLockBlock` keeps its default uint256() = 0; afterwards the
loop-final pindex (null once the walk passes genesis) is what gets written
under "is_lcb". The trailing RetryLockMempoolTxs touches only the mempool. -/
def NotifyChainLock (chain : List BlockData) (st : CInstantSendManager)
    (pindex : Nat) : CInstantSendManager :=
  let lastChainLockBlock : Nat := 0
  let walked := notifyLoop chain lastChainLockBlock pindex st
  let newWatermark := match walked.1 with
    | some i => ((chain.get? i).map (fun b => b.blockHash)).getD 0
    | none => 0
  { walked.2 with db := { walked.2.db with lastChainLockBlock := newWatermark } }

/-! ### ProcessTx and the signing-engine boundary -/

/-- Modelled from the spec: the CSigningManager vote store (§4.5 "Vote
binding" — at most one `(llmqType, id) → msgHash` binding, first one wins);
the sources of the signing engine are not under src/. -/
structure SigningEnv where
  votes : List ((Nat × Nat) × Nat)
  deriving DecidableEq

/-- Modelled from the spec: CSigningManager::GetVoteForId — the stored vote
binding for (llmqType, id), when any. -/
def GetVoteForId (senv : SigningEnv) (llmqType id : Nat) : Option Nat :=
  List.lookup (llmqType, id) senv.votes

/-- Modelled from the spec: CSigningManager::IsConflicting — a stored vote
for the id bound to a DIFFERENT msgHash. -/
def IsConflicting (senv : SigningEnv) (llmqType id msgHash : Nat) : Bool :=
  match GetVoteForId senv llmqType id with
  | some v => v != msgHash
  | none => false

/-- Modelled from the spec: the vote-recording effect of
CSigningManager::AsyncSignIfMember — the first (id → msgHash) binding is
stored and never overwritten; share emission is outside the store. -/
def AsyncSignIfMember (senv : SigningEnv) (llmqType id msgHash : Nat) : SigningEnv :=
  match GetVoteForId senv llmqType id with
  | some _ => senv
  | none => { senv with votes := ((llmqType, id), msgHash) :: senv.votes }

structure CTransaction where
  txid : Nat
  vin : List Outpoint
  deriving DecidableEq

/-- The scan of GetConflictingTx over the inputs: the first input whose
stored islock carries a different txid decides. -/
def conflictScan (db : CInstantSendDb) (tx : CTransaction) : List Outpoint → Option Nat
  | [] => none
  | o :: rest =>
    match GetInstantSendLockByInput db o with
    | none => conflictScan db tx rest
    | some other =>
      if other.txid != tx.txid then some other.txid else conflictScan db tx rest

/-- From CInstantSendManager::GetConflictingTx (quorums_instantsend.cpp:
898-917); gated on IsNewInstantSendEnabled. -/
def GetConflictingTx (enabled : Bool) (db : CInstantSendDb) (tx : CTransaction) : Option Nat :=
  if enabled then conflictScan db tx tx.vin else none

/-- The first per-input loop of ProcessTx (quorums_instantsend.cpp:208-226):
count already-matching votes, fail on a vote bound to another txid or on a
reported conflict. Returns the final alreadyVotedCount, or none for the
early `return false`. -/
def voteScan (senv : SigningEnv) (llmqType : Nat) (tx : CTransaction) :
    List Outpoint → Nat → Option Nat
  | [], acc => some acc
  | o :: rest, acc =>
    let id := inputRequestId o
    match GetVoteForId senv llmqType id with
    | some otherTxHash =>
      if otherTxHash != tx.txid then none
      else if IsConflicting senv llmqType id tx.txid then none
      else voteScan senv llmqType tx rest (acc + 1)
    | none =>
      if IsConflicting senv llmqType id tx.txid then none
      else voteScan senv llmqType tx rest acc

/-- The local preconditions probed at the top of ProcessTx, plus the
CheckCanLock verdict (`canLock`), which consults mempool/UTXO/ChainLock
state — external collaborators. -/
structure ProcessTxEnv where
  newInstantSendEnabled : Bool
  llmqTypeInstantSend : Option Nat
  masternodeMode : Bool
  blockchainSynced : Bool
  canLock : Bool
  deriving DecidableEq

def insertSet (l : List Nat) (x : Nat) : List Nat := if l.contains x then l else x :: l

/-- From CInstantSendManager::ProcessTx (quorums_instantsend.cpp:177-241).
Returns (result, signing state, manager state, AsyncSignIfMember calls).
The trailing TrySignInstantSendLock acts on the islock-assembly pipeline and
recovered-signature queries, not on the conflict state the claims examine. -/
def ProcessTx (env : ProcessTxEnv) (senv : SigningEnv) (st : CInstantSendManager)
    (tx : CTransaction) : Bool × SigningEnv × CInstantSendManager × List (Nat × Nat) :=
  if !env.newInstantSendEnabled then (true, senv, st, [])
  else match env.llmqTypeInstantSend with
  | none => (true, senv, st, [])
  | some llmqType =>
    if !env.masternodeMode then (true, senv, st, [])
    else if !env.blockchainSynced then (true, senv, st, [])
    else if (GetConflictingTx env.newInstantSendEnabled st.db tx).isSome then
      (false, senv, st, [])
    else if !env.canLock then (false, senv, st, [])
    else
      match voteScan senv llmqType tx tx.vin 0 with
      | none => (false, senv, st, [])
      | some alreadyVotedCount =>
        if alreadyVotedCount = tx.vin.length then (true, senv, st, [])
        else
          let ids := tx.vin.map inputRequestId
          let st := { st with inputRequestIds := ids.foldl insertSet st.inputRequestIds }
          let senv := ids.foldl (fun e id => AsyncSignIfMember e llmqType id tx.txid) senv
          (true, senv, st, ids.map (fun id => (id, tx.txid)))

/-! ### Concrete scenario states used by the divergence evaluations -/

/-- Chain of three blocks: hashes 1, 2, 3, mining transactions 10, 20, 30. -/
def c2Chain : List BlockData := [⟨1, [10]⟩, ⟨2, [20]⟩, ⟨3, [30]⟩]

def c2Lock10 : CInstantSendLock := ⟨10, [(7, 0)], 0⟩

def c2Lock30 : CInstantSendLock := ⟨30, [(8, 0)], 0⟩

/-- Stored watermark = block hash 1; islocks held for transactions 10 and 30. -/
def c2State : CInstantSendManager :=
  { db := { WriteNewInstantSendLock (WriteNewInstantSendLock emptyISDb 501 c2Lock10) 503 c2Lock30
            with lastChainLockBlock := 1 },
    inputRequestIds := [], creatingInstantSendLocks := [], txToCreatingInstantSendLocks := [] }

def c3OldLock : CInstantSendLock := ⟨100, [(1, 0)], 0⟩

def c3NewLock : CInstantSendLock := ⟨100, [(2, 0)], 1⟩

/-- One islock for txid 100 already stored under hash 500. -/
def c3State : CInstantSendManager :=
  { initialISManager with db := WriteNewInstantSendLock emptyISDb 500 c3OldLock }

/-- Two islocks with different txids both listing outpoint (1,0). -/
def c4Ops : List ISOp :=
  [ISOp.process false 500 ⟨100, [(1, 0)], 0⟩, ISOp.process false 600 ⟨200, [(1, 0)], 1⟩]

def c5Lock : CInstantSendLock := ⟨300, [(9, 0)], 0⟩

def c5State : CInstantSendManager :=
  { initialISManager with db := WriteNewInstantSendLock emptyISDb 550 c5Lock }

def c5Votes : SigningEnv := ⟨[((1, inputRequestId (9, 0)), 300)]⟩

def c5Tx : CTransaction := ⟨400, [(9, 0)]⟩

def c3wOldLock : CInstantSendLock := ⟨200, [(4, 0)], 2⟩

def c3wNewLock : CInstantSendLock := ⟨200, [(5, 0)], 3⟩

def c3wState : CInstantSendManager :=
  { initialISManager with db := WriteNewInstantSendLock emptyISDb 700 c3wOldLock }

def c9Lock : CInstantSendLock := ⟨77, [(3, 0)], 0⟩

/-! ## Theorems -/

theorem lookup_setKV_self {α β : Type} [DecidableEq α] (m : List (α × β)) (k : α) (v : β) :
    List.lookup k (setKV m k v) = some v := by
  simp [setKV, List.lookup]

/-- C6: for all (llmqType, quorumHash, id, msgHash), BuildSignHash returns the
standard double SHA-256 of the byte concatenation
llmqType || quorumHash || id || msgHash, in exactly that field order. -/
theorem C6_buildSignHash_is_concat_hash (llmqType quorumHash id msgHash : Nat) :
    BuildSignHash llmqType quorumHash id msgHash =
      natOfBytesLE (sha256d (serU8 llmqType ++ serU256 quorumHash ++ serU256 id
        ++ serU256 msgHash)) := by
  simp [BuildSignHash, HashWriter.GetHash, HashWriter.app, HashWriter.empty]

/-- C7 counterexample: at a concrete indexed-version commitment the hash
computed by BuildCommitmentHash differs from the hash of the serialization
with quorumIndex appended at the end, as the claim describes it. -/
theorem C7_cx_quorumIndex_not_at_end :
    BuildCommitmentHash 1 2 [true, false, true] (List.replicate 48 7) 3 true 5 ≠
      commitmentHashSpecOrder 1 2 [true, false, true] (List.replicate 48 7) 3 true 5 := by
  decide

/-- C7 (amended): the commitment hash is the hash of the serialized fields in
the order llmqType, quorumHash, then — exactly when the commitment is of the
indexed version — quorumIndex, then validMembers bitset, quorumPublicKey,
verificationVectorHash. -/
theorem C7_commitmentHash_index_after_blockHash (llmqType blockHash : Nat)
    (validMembers : List Bool) (pubKey : List Nat) (vvecHash : Nat)
    (isIndexedVersion : Bool) (quorumIndex : Nat) :
    BuildCommitmentHash llmqType blockHash validMembers pubKey vvecHash isIndexedVersion quorumIndex =
      natOfBytesLE (sha256d (serU8 llmqType ++ serU256 blockHash
        ++ (if isIndexedVersion then serU32 quorumIndex else [])
        ++ dynBitsetSer validMembers ++ pubKey ++ serU256 vvecHash)) := by
  cases isIndexedVersion <;>
    simp [BuildCommitmentHash, HashWriter.GetHash, HashWriter.app, HashWriter.empty]

/-- C1: at the concrete combined list [10..17] with used set {12, 13} and
quarter size 3, the builder emits quarter [10, 11, 14] and skip list
mode 1, [2, -1] (second entry `first_entry_index - i` = 2 - 3), but the
reader decodes the second entry as `first_entry_index + s` = index 1 and so
rebuilds [10, 13, 14] — the fresh quarter does not round-trip through the
stored snapshot. -/
theorem C1_skipList_encode_decode_divergence :
    (BuildQuorumSnapshotSkipList 3 (fun x => x == 12 || x == 13)
      [10, 11, 12, 13, 14, 15, 16, 17]).quarterMembers = [10, 11, 14] ∧
    (BuildQuorumSnapshotSkipList 3 (fun x => x == 12 || x == 13)
      [10, 11, 12, 13, 14, 15, 16, 17]).snapshot = ⟨1, [2, -1]⟩ ∧
    ApplySkipList 3 [10, 11, 12, 13, 14, 15, 16, 17] 1 [2, -1] = some [10, 13, 14] ∧
    some [10, 13, 14] ≠ some [10, 11, 14] := by
  decide

/-- C10: under the precondition that the decoded skip-list indices are in
range and the combined sorted list still provides size/4 entries after the
skipping, the quarter extraction is total — the out-of-range branch of the
unchecked copy_n / .at accesses is unreachable. -/
theorem C10_applySkipList_total_under_precond (quarterSize : Nat) (mns : List Nat)
    (mode : Nat) (skipList : List Int) (hmode : mode ≤ 2)
    (hpre : SkipApplyPrecond quarterSize mns mode skipList = true) :
    (ApplySkipList quarterSize mns mode skipList).isSome = true := by
  have h3 : mode = 0 ∨ mode = 1 ∨ mode = 2 := by omega
  rcases h3 with rfl | rfl | rfl
  · simp [SkipApplyPrecond] at hpre
    simp [ApplySkipList, hpre]
  · cases h : resolveSkipIndices mns skipList 0 [] with
    | none => simp [SkipApplyPrecond, h] at hpre
    | some toRemove =>
      simp [SkipApplyPrecond, h] at hpre
      simp [ApplySkipList, h, hpre]
  · cases h : resolveSkipIndices mns skipList 0 [] with
    | none => simp [SkipApplyPrecond, h] at hpre
    | some toKeep =>
      simp [SkipApplyPrecond, h] at hpre
      simp [ApplySkipList, h, hpre]

/-- C10 witness: a concrete mode-1 application satisfying the precondition. -/
theorem C10_witness :
    (1 : Nat) ≤ 2 ∧ SkipApplyPrecond 2 [5, 6, 7, 8] 1 [2] = true ∧
    (ApplySkipList 2 [5, 6, 7, 8] 1 [2]).isSome = true :=
  ⟨by decide, by decide, C10_applySkipList_total_under_precond 2 [5, 6, 7, 8] 1 [2]
    (by decide) (by decide)⟩

/-- C8: for distinct proTxHashes whose two candidate triple hashes differ
(double SHA-256 collision-freeness on the pair), the outbound choice is
symmetric in its arguments, and the returned hash is the argument minimizing
the hash of the triple (min(A,B), max(A,B), h). -/
theorem C8_deterministicOutbound_symmetric (A B : Nat) (hne : A ≠ B)
    (hh : serializeHashTriple (min A B) (max A B) A ≠ serializeHashTriple (min A B) (max A B) B) :
    DeterministicOutboundConnection A B = DeterministicOutboundConnection B A ∧
    ∀ C ∈ [A, B],
      serializeHashTriple (min A B) (max A B) (DeterministicOutboundConnection A B) ≤
        serializeHashTriple (min A B) (max A B) C := by
  rcases Nat.lt_or_ge A B with hAB | hge
  · have hmin : min A B = A := Nat.min_eq_left (Nat.le_of_lt hAB)
    have hmax : max A B = B := Nat.max_eq_right (Nat.le_of_lt hAB)
    rw [hmin, hmax] at hh ⊢
    have hnBA : ¬ B < A := Nat.not_lt.mpr (Nat.le_of_lt hAB)
    simp only [DeterministicOutboundConnection, if_pos hAB, if_neg hnBA]
    rcases Nat.lt_or_ge (serializeHashTriple A B A) (serializeHashTriple A B B) with h1 | h2
    · have hn : ¬ serializeHashTriple A B B < serializeHashTriple A B A := by omega
      refine ⟨by rw [if_pos h1, if_neg hn], ?_⟩
      intro C hC
      rw [if_pos h1]
      rcases List.mem_pair.mp hC with rfl | rfl
      · exact Nat.le_refl _
      · exact Nat.le_of_lt h1
    · have hlt : serializeHashTriple A B B < serializeHashTriple A B A :=
        lt_of_le_of_ne h2 (Ne.symm hh)
      have hn : ¬ serializeHashTriple A B A < serializeHashTriple A B B := by omega
      refine ⟨by rw [if_neg hn, if_pos hlt], ?_⟩
      intro C hC
      rw [if_neg hn]
      rcases List.mem_pair.mp hC with rfl | rfl
      · exact h2
      · exact Nat.le_refl _
  · have hBA : B < A := Nat.lt_of_le_of_ne hge (Ne.symm hne)
    have hmin : min A B = B := Nat.min_eq_right (Nat.le_of_lt hBA)
    have hmax : max A B = A := Nat.max_eq_left (Nat.le_of_lt hBA)
    rw [hmin, hmax] at hh ⊢
    have hnAB : ¬ A < B := Nat.not_lt.mpr (Nat.le_of_lt hBA)
    simp only [DeterministicOutboundConnection, if_pos hBA, if_neg hnAB]
    rcases Nat.lt_or_ge (serializeHashTriple B A A) (serializeHashTriple B A B) with h1 | h2
    · have hn : ¬ serializeHashTriple B A B < serializeHashTriple B A A := by omega
      refine ⟨by rw [if_pos h1, if_neg hn], ?_⟩
      intro C hC
      rw [if_pos h1]
      rcases List.mem_pair.mp hC with rfl | rfl
      · exact Nat.le_refl _
      · exact Nat.le_of_lt h1
    · have hlt : serializeHashTriple B A B < serializeHashTriple B A A :=
        lt_of_le_of_ne h2 (Ne.symm hh)
      have hn : ¬ serializeHashTriple B A A < serializeHashTriple B A B := by omega
      refine ⟨by rw [if_neg hn, if_pos hlt], ?_⟩
      intro C hC
      rw [if_neg hn]
      rcases List.mem_pair.mp hC with rfl | rfl
      · exact h2
      · exact Nat.le_refl _

/-- C8 witness: the concrete pair (1, 2); the hash-distinctness hypothesis is
evaluated. -/
theorem C8_witness :
    DeterministicOutboundConnection 1 2 = DeterministicOutboundConnection 2 1 ∧
    ∀ C ∈ [1, 2],
      serializeHashTriple (min 1 2) (max 1 2) (DeterministicOutboundConnection 1 2) ≤
        serializeHashTriple (min 1 2) (max 1 2) C :=
  C8_deterministicOutbound_symmetric 1 2 (by decide) (by decide)

/-- C2: at the concrete chain 1-2-3 with stored watermark 1 and islocks for
transactions 10 (block 1) and 30 (block 3), NotifyChainLock at the block with
hash 3 records watermark 0 (the null uint256, since the walk runs past
genesis) rather than 3, and removes even the islock of transaction 10, which
sits at the old watermark — the stored watermark is read but its value is
discarded. -/
theorem C2_notifyChainLock_watermark_divergence :
    (NotifyChainLock c2Chain c2State 2).db.lastChainLockBlock = 0 ∧
    (0 : Nat) ≠ 3 ∧
    GetInstantSendLockByTxid (NotifyChainLock c2Chain c2State 2).db 10 = none := by
  decide

/-- C3 counterexample: with an islock for txid 100 stored under hash 500,
processing a second islock for the same txid under fresh hash 600 stores the
new islock and repoints the txid lookup at it — the new islock is logged but
NOT dropped. -/
theorem C3_cx_duplicate_txid_stored :
    GetInstantSendLockByHash (ProcessInstantSendLock false c3State 600 c3NewLock).1.db 600 =
      some c3NewLock ∧
    GetInstantSendLockByTxid (ProcessInstantSendLock false c3State 600 c3NewLock).1.db 100 =
      some c3NewLock ∧
    c3NewLock ≠ c3OldLock := by
  decide

theorem getByHash_write_self (db : CInstantSendDb) (hash : Nat) (islock : CInstantSendLock) :
    GetInstantSendLockByHash (WriteNewInstantSendLock db hash islock) hash = some islock := by
  simp [GetInstantSendLockByHash, WriteNewInstantSendLock, lookup_setKV_self]

theorem getByTxid_write_self (db : CInstantSendDb) (hash : Nat) (islock : CInstantSendLock) :
    GetInstantSendLockByTxid (WriteNewInstantSendLock db hash islock) islock.txid = some islock := by
  simp [GetInstantSendLockByTxid, GetInstantSendLockByHash, WriteNewInstantSendLock,
    lookup_setKV_self]

/-- C3 (amended): an islock whose hash is not yet stored but whose txid
already carries a stored islock is logged as a duplicate yet still written;
txid lookups then return the NEW islock. -/
theorem C3_amended_duplicate_txid_overwrites (st : CInstantSendManager) (hash : Nat)
    (islock other : CInstantSendLock)
    (h1 : GetInstantSendLockByHash st.db hash = none)
    (h2 : GetInstantSendLockByTxid st.db islock.txid = some other) :
    GetInstantSendLockByHash (ProcessInstantSendLock false st hash islock).1.db hash =
      some islock ∧
    GetInstantSendLockByTxid (ProcessInstantSendLock false st hash islock).1.db islock.txid =
      some islock ∧
    ISEvent.logDuplicateTxid hash ∈ (ProcessInstantSendLock false st hash islock).2 := by
  simp [ProcessInstantSendLock, h1, h2, getByHash_write_self, getByTxid_write_self]

/-- C3 witness: the amended behaviour at a concrete duplicate-txid pair. -/
theorem C3_witness :
    GetInstantSendLockByHash (ProcessInstantSendLock false c3wState 800 c3wNewLock).1.db 800 =
      some c3wNewLock ∧
    GetInstantSendLockByTxid (ProcessInstantSendLock false c3wState 800 c3wNewLock).1.db
      c3wNewLock.txid = some c3wNewLock ∧
    ISEvent.logDuplicateTxid 800 ∈ (ProcessInstantSendLock false c3wState 800 c3wNewLock).2 :=
  C3_amended_duplicate_txid_overwrites c3wState 800 c3wNewLock c3wOldLock (by decide) (by decide)

theorem nodupKeys_setKV {α β : Type} [DecidableEq α] (m : List (α × β)) (k : α) (v : β)
    (h : (m.map Prod.fst).Nodup) : ((setKV m k v).map Prod.fst).Nodup := by
  rw [setKV, List.map_cons, List.nodup_cons]
  constructor
  · intro hk
    rcases List.mem_map.mp hk with ⟨p, hp, hfst⟩
    have hpf := List.of_mem_filter hp
    rw [hfst] at hpf
    simp at hpf
  · exact List.Nodup.sublist (List.Sublist.map Prod.fst (List.filter_sublist m)) h

theorem nodupKeys_eraseKV {α β : Type} [DecidableEq α] (m : List (α × β)) (k : α)
    (h : (m.map Prod.fst).Nodup) : ((eraseKV m k).map Prod.fst).Nodup :=
  List.Nodup.sublist (List.Sublist.map Prod.fst (List.filter_sublist m)) h

theorem nodupKeys_foldl_setKV (inputs : List Outpoint) (hash : Nat) (m : List (Outpoint × Nat))
    (h : (m.map Prod.fst).Nodup) :
    ((inputs.foldl (fun acc o => setKV acc o hash) m).map Prod.fst).Nodup := by
  induction inputs generalizing m with
  | nil => exact h
  | cons a as ih => exact ih _ (nodupKeys_setKV m a hash h)

theorem nodupKeys_foldl_eraseKV (inputs : List Outpoint) (m : List (Outpoint × Nat))
    (h : (m.map Prod.fst).Nodup) :
    ((inputs.foldl (fun acc o => eraseKV acc o) m).map Prod.fst).Nodup := by
  induction inputs generalizing m with
  | nil => exact h
  | cons a as ih => exact ih _ (nodupKeys_eraseKV m a h)

theorem applyISOp_inputIndex_nodup (st : CInstantSendManager) (op : ISOp)
    (h : (st.db.inputIndex.map Prod.fst).Nodup) :
    ((applyISOp st op).db.inputIndex.map Prod.fst).Nodup := by
  cases op with
  | write hash islock =>
    simpa [applyISOp, WriteNewInstantSendLock] using
      nodupKeys_foldl_setKV islock.inputs hash st.db.inputIndex h
  | remove hash islockArg =>
    cases islockArg with
    | some islock =>
      simpa [applyISOp, RemoveInstantSendLock] using
        nodupKeys_foldl_eraseKV islock.inputs st.db.inputIndex h
    | none =>
      cases hg : GetInstantSendLockByHash st.db hash with
      | none => simpa [applyISOp, RemoveInstantSendLock, hg] using h
      | some islock =>
        simpa [applyISOp, RemoveInstantSendLock, hg] using
          nodupKeys_foldl_eraseKV islock.inputs st.db.inputIndex h
  | process mined hash islock =>
    cases mined with
    | true => simpa [applyISOp, ProcessInstantSendLock] using h
    | false =>
      by_cases hs : (GetInstantSendLockByHash st.db hash).isSome
      · simpa [applyISOp, ProcessInstantSendLock, hs] using h
      · simpa [applyISOp, ProcessInstantSendLock, hs, WriteNewInstantSendLock] using
          nodupKeys_foldl_setKV islock.inputs hash st.db.inputIndex h

/-- C4 counterexample: from the empty store, processing two islocks with
different txids that both list outpoint (1,0) leaves BOTH stored — more than
one stored islock lists the same outpoint — and the existing input-index
binding (1,0) → 500 is displaced by 600 with no reorg involved. -/
theorem C4_cx_two_stored_islocks_share_input :
    ¬ (((runISOps c4Ops).db.islocks.filter
        (fun p => p.2.inputs.contains ((1, 0) : Outpoint))).length ≤ 1) ∧
    List.lookup ((1, 0) : Outpoint) (runISOps (c4Ops.take 1)).db.inputIndex = some 500 ∧
    List.lookup ((1, 0) : Outpoint) (runISOps c4Ops).db.inputIndex = some 600 := by
  decide

/-- C4 (amended): in every state reachable by ProcessInstantSendLock /
WriteNewInstantSendLock / RemoveInstantSendLock, each outpoint is bound to at
most one islock hash in the input index ("is_in" has unique keys); a
conflicting later islock overwrites the binding rather than being rejected,
and RemoveInstantSendLock (also run on ChainLock supersession, not only
reorgs) removes bindings. -/
theorem C4_amended_inputIndex_unique_binding (ops : List ISOp) :
    ((runISOps ops).db.inputIndex.map Prod.fst).Nodup := by
  have main : ∀ (l : List ISOp) (st : CInstantSendManager),
      (st.db.inputIndex.map Prod.fst).Nodup →
      ((l.foldl applyISOp st).db.inputIndex.map Prod.fst).Nodup := by
    intro l
    induction l with
    | nil => intro st h; exact h
    | cons a as ih => intro st h; exact ih _ (applyISOp_inputIndex_nodup st a h)
  exact main ops initialISManager (by simp [initialISManager, emptyISDb])

theorem conflictScan_skip (db : CInstantSendDb) (tx : CTransaction) (pre l : List Outpoint)
    (h : ∀ p ∈ pre, GetInstantSendLockByInput db p = none) :
    conflictScan db tx (pre ++ l) = conflictScan db tx l := by
  induction pre with
  | nil => rfl
  | cons a as ih =>
    have ha := h a (List.mem_cons_self a as)
    simp only [List.cons_append, conflictScan, ha]
    exact ih (fun p hp => h p (List.mem_cons_of_mem a hp))

/-- C5: with the local preconditions met, if some input of tx carries a
stored islock for a different txid v — the txid that the vote of the signing engine
for the request id of that input is bound to — then ProcessTx rejects the tx
(returns false), issues no AsyncSignIfMember call, leaves the vote store
untouched, and GetConflictingTx yields v through the stored islock of the
conflicting input. -/
theorem C5_processTx_conflicting_input (llmqType : Nat) (canLock : Bool) (senv : SigningEnv)
    (st : CInstantSendManager) (tx : CTransaction) (pre rest : List Outpoint) (o : Outpoint)
    (other : CInstantSendLock)
    (hvin : tx.vin = pre ++ o :: rest)
    (hpre : ∀ p ∈ pre, GetInstantSendLockByInput st.db p = none)
    (hlock : GetInstantSendLockByInput st.db o = some other)
    (hne : other.txid ≠ tx.txid)
    (hvote : GetVoteForId senv llmqType (inputRequestId o) = some other.txid) :
    ProcessTx ⟨true, some llmqType, true, true, canLock⟩ senv st tx = (false, senv, st, []) ∧
    GetConflictingTx true st.db tx = some other.txid := by
  have hscan : conflictScan st.db tx tx.vin = some other.txid := by
    rw [hvin, conflictScan_skip st.db tx pre _ hpre]
    simp [conflictScan, hlock, hne]
  have hconf : GetConflictingTx true st.db tx = some other.txid := by
    simp [GetConflictingTx, hscan]
  exact ⟨by simp [ProcessTx, hconf], hconf⟩

/-- C5 witness: transaction 400 spending (9,0), which is bound by the stored
islock of transaction 300 and by a vote for 300. -/
theorem C5_witness :
    ProcessTx ⟨true, some 1, true, true, true⟩ c5Votes c5State c5Tx =
      (false, c5Votes, c5State, []) ∧
    GetConflictingTx true c5State.db c5Tx = some c5Lock.txid :=
  C5_processTx_conflicting_input 1 true c5Votes c5State c5Tx [] [] (9, 0) c5Lock
    rfl (by intro p hp; cases hp) (by decide) (by decide) (by decide)

theorem relayAfterWrite_conflictLogs (db : CInstantSendDb) (hash : Nat) (inputs : List Outpoint)
    (l : List ISEvent) (w : List Nat) :
    relayAfterWrite ((inputs.filterMap (fun o =>
      if (GetInstantSendLockByInput db o).isSome then some (ISEvent.logConflictInput hash o)
      else none)) ++ l) w = relayAfterWrite l w := by
  induction inputs with
  | nil => rfl
  | cons a as ih =>
    by_cases hc : (GetInstantSendLockByInput db a).isSome
    · simpa [List.filterMap_cons, hc, relayAfterWrite] using ih
    · simpa [List.filterMap_cons, hc] using ih

/-- C9: whenever ProcessInstantSendLock relays the inventory of an islock, the
trace records its store write strictly earlier, and the final state holds
the islock — a relayed-but-not-stored state is unreachable. -/
theorem C9_islock_stored_before_relay (mined : Bool) (st : CInstantSendManager) (hash : Nat)
    (islock : CInstantSendLock)
    (h : ISEvent.relayInv hash ∈ (ProcessInstantSendLock mined st hash islock).2) :
    relayAfterWrite (ProcessInstantSendLock mined st hash islock).2 [] = true ∧
    GetInstantSendLockByHash (ProcessInstantSendLock mined st hash islock).1.db hash =
      some islock := by
  cases mined with
  | true => exfalso; revert h; simp [ProcessInstantSendLock]
  | false =>
    by_cases hs : (GetInstantSendLockByHash st.db hash).isSome
    · exfalso; revert h; simp [ProcessInstantSendLock, hs]
    · cases ht : GetInstantSendLockByTxid st.db islock.txid with
      | none =>
        constructor
        · simp [ProcessInstantSendLock, hs, ht, relayAfterWrite, relayAfterWrite_conflictLogs]
        · simp [ProcessInstantSendLock, hs, ht, getByHash_write_self]
      | some other =>
        constructor
        · simp [ProcessInstantSendLock, hs, ht, relayAfterWrite, relayAfterWrite_conflictLogs]
        · simp [ProcessInstantSendLock, hs, ht, getByHash_write_self]

/-- C9 witness: a fresh islock on the empty store is written and relayed. -/
theorem C9_witness :
    relayAfterWrite (ProcessInstantSendLock false initialISManager 555 c9Lock).2 [] = true ∧
    GetInstantSendLockByHash (ProcessInstantSendLock false initialISManager 555 c9Lock).1.db 555 =
      some c9Lock :=
  C9_islock_stored_before_relay false initialISManager 555 c9Lock (by decide)

end Darkcoin
